import Mathlib

set_option maxHeartbeats 2000000
set_option autoImplicit false
set_option linter.unusedVariables false

/-!
A shallow embedding of `scripts/validate-links.js`, the link-integrity checker
of the repository.  The script's pure logic is translated function by
function: `buildUrlFromName`, the redirect/method-fallback loop `checkUrl`,
the concurrency limiter `pLimit`, the start-time throttler
`makeStartThrottler`, and the batch/aggregation logic of `main`.

External effects are made explicit parameters:

* a probe oracle `probe : Nat → ProbeOutcome` gives the outcome of the
  `k`-th `requestOnce` call made for a record (any sequence of network
  responses is represented by some oracle);
* `resolveUrl : String → String → Option String` stands for the WHATWG
  resolution `new URL(loc, base).toString()` performed by Node's builtin
  (`none` models the constructor throwing, the case the script catches and
  turns into the verdict "invalid redirect location");
* clock readings and timer behaviour of the throttler are captured by
  per-call environment records constrained by monotonicity hypotheses.

Besides the `{ url, valid, reason }` record that the JavaScript function
returns, the embedded resolver also exposes the trace of issued requests and
its final loop state, which the theorems use to speak about the number of
probes and the redirect count.
-/

/-- HTTP method used by the validator: HEAD is preferred, GET is the
fallback (`validate-links.js`, line 57 and lines 63-69). -/
inductive Method where
  | HEAD
  | GET
  deriving DecidableEq

/-- Outcome of one `requestOnce` call (lines 37-50): either a transport
failure carrying an optional error message (`ok:false`, the message may be
absent, cf. `last.error?.message`), or a response with a status code and an
optional `Location` header value (`ok:true`). -/
inductive ProbeOutcome where
  | failure (errMsg : Option String)
  | response (statusCode : Nat) (location : Option String)
  deriving DecidableEq

/-- The record returned by `checkUrl`: `{ url, valid, reason? }`
(lines 60, 62, 76, 84, 86). -/
structure CheckResult where
  url : String
  valid : Bool
  reason : Option String
  deriving DecidableEq

/-- The mutable loop state of `checkUrl` (lines 54-57): `currentUrl`,
`redirects`, `method`. -/
structure ResolverState where
  currentUrl : String
  redirects : Nat
  method : Method
  deriving DecidableEq

/-- One unit of "work left" for the HEAD-to-GET fallback: a HEAD probe may
still fall back to GET at the same redirect level, a GET probe may not. -/
def methodBit : Method → Nat
  | .HEAD => 1
  | .GET => 0

/-- Termination measure for the `checkUrl` loop: each redirect level
`redirects ≤ maxRedirects` allows at most a HEAD probe and a GET probe. -/
def stateMeasure (maxRedirects : Nat) (s : ResolverState) : Nat :=
  2 * (maxRedirects + 1 - s.redirects) + methodBit s.method

/-- The loop of `checkUrl` (lines 58-85), with the loop condition
`redirects <= MAX_REDIRECTS` at the top and the post-loop return
(line 86) in the final branch.  `k` numbers the `requestOnce` calls so the
oracle can answer each probe independently.  The value returned is the
trace of issued requests (url, method), the final loop state, and the
result record the JavaScript function returns. -/
def checkUrlAux (maxRedirects : Nat) (resolveUrl : String → String → Option String)
    (probe : Nat → ProbeOutcome) (k : Nat) (s : ResolverState) :
    List (String × Method) × ResolverState × CheckResult :=
  if hred : s.redirects ≤ maxRedirects then
    match probe k with
    | .failure errMsg =>
        ([(s.currentUrl, s.method)], s,
          ⟨s.currentUrl, false, some (errMsg.getD ("request failed"))⟩)
    | .response status location =>
        if 200 ≤ status ∧ status < 300 then
          ([(s.currentUrl, s.method)], s, ⟨s.currentUrl, true, none⟩)
        else if hm : (status = 405 ∨ status = 403) ∧ s.method = .HEAD then
          let r := checkUrlAux maxRedirects resolveUrl probe (k + 1)
            ⟨s.currentUrl, s.redirects, .GET⟩
          ((s.currentUrl, s.method) :: r.1, r.2)
        else if 300 ≤ status ∧ status < 400 ∧ (location.getD ("")) ≠ "" then
          match resolveUrl (location.getD ("")) s.currentUrl with
          | some newUrl =>
              let r := checkUrlAux maxRedirects resolveUrl probe (k + 1)
                ⟨newUrl, s.redirects + 1, .HEAD⟩
              ((s.currentUrl, s.method) :: r.1, r.2)
          | none =>
              ([(s.currentUrl, s.method)], s,
                ⟨s.currentUrl, false, some ("invalid redirect location")⟩)
        else
          ([(s.currentUrl, s.method)], s,
            ⟨s.currentUrl, false, some ("HTTP " ++ toString status)⟩)
  else
    ([], s, ⟨s.currentUrl, false, some ("too many redirects")⟩)
termination_by stateMeasure maxRedirects s
decreasing_by
  · simp only [stateMeasure, methodBit, hm.2]
    omega
  · simp only [stateMeasure]
    have hb : methodBit (Method.HEAD) = 1 := rfl
    rw [hb]
    omega

/-- The result record of `checkUrl(url)` (line 52): the loop is entered
with `currentUrl = url`, `redirects = 0`, `method = HEAD`. -/
def checkUrl (maxRedirects : Nat) (resolveUrl : String → String → Option String)
    (probe : Nat → ProbeOutcome) (url : String) : CheckResult :=
  (checkUrlAux maxRedirects resolveUrl probe 0 ⟨url, 0, .HEAD⟩).2.2

/-- The trace of requests (url, method) issued by `checkUrl(url)`. -/
def checkUrlTrace (maxRedirects : Nat) (resolveUrl : String → String → Option String)
    (probe : Nat → ProbeOutcome) (url : String) : List (String × Method) :=
  (checkUrlAux maxRedirects resolveUrl probe 0 ⟨url, 0, .HEAD⟩).1

/-- The final loop state of `checkUrl(url)`. -/
def checkUrlFinal (maxRedirects : Nat) (resolveUrl : String → String → Option String)
    (probe : Nat → ProbeOutcome) (url : String) : ResolverState :=
  (checkUrlAux maxRedirects resolveUrl probe 0 ⟨url, 0, .HEAD⟩).2.1

/-- The fixed wiki base path (line 18). -/
def BASE : String := "https://nomanssky.fandom.com/wiki/"

/-- JavaScript `str.split(sep)` for a one-character separator, on the
character list of the string: splits at every occurrence of `sep`;
splitting the empty string yields `[[]]` (JS: `''.split(' ')` is `['']`). -/
def splitChar (sep : Char) : List Char → List (List Char)
  | [] => [[]]
  | c :: cs =>
    match splitChar sep cs with
    | [] => [[]]
    | p :: ps => if c = sep then [] :: p :: ps else (c :: p) :: ps

/-- JavaScript `arr.join(sep)` for a one-character separator, on character
lists: interleaves `sep` between the parts. -/
def joinChar (sep : Char) : List (List Char) → List Char
  | [] => []
  | [p] => p
  | p :: ps => p ++ sep :: joinChar sep ps

/-- Line 31-35: `const suffix = (name || '').split(' ').join('_');
return BASE + suffix`.  A missing (`null`/`undefined`) name is `none`; the
JavaScript `name || ''` default is `Option.getD` (an empty string is falsy
and is likewise replaced by `''`, which is the same string). -/
def buildUrlFromName (name : Option String) : String :=
  let suffix : List Char := joinChar '_' (splitChar ' ' (name.getD ("")).data)
  BASE ++ ⟨suffix⟩

/-- State of the `pLimit` closure (lines 89-100): `activeCount` and the
FIFO `queue`; queued tasks are identified by opaque ids. -/
structure LimiterState where
  activeCount : Nat
  queue : List Nat
  deriving DecidableEq

/-- The `next` closure of `pLimit` (lines 92-98): if the queue is empty or
`activeCount >= concurrency`, do nothing; otherwise increment `activeCount`,
shift the queue's front task and start it.  Returns the new state and the
admitted task, if any. -/
def limiterNext (concurrency : Nat) (s : LimiterState) : LimiterState × Option Nat :=
  match s.queue with
  | [] => (s, none)
  | t :: rest =>
    if concurrency ≤ s.activeCount then (s, none)
    else (⟨s.activeCount + 1, rest⟩, some t)

/-- The two events that mutate the limiter state: a submission
(line 99: push then `next()`) and the completion of a running task
(line 97: `activeCount--` in both `.then` and `.catch`, then `next()`). -/
inductive LimiterEvent where
  | submit (id : Nat)
  | complete
  deriving DecidableEq

/-- One limiter event: both handlers end by calling `next()` exactly once. -/
def limiterStep (concurrency : Nat) (s : LimiterState) :
    LimiterEvent → LimiterState × Option Nat
  | .submit id => limiterNext concurrency ⟨s.activeCount, s.queue ++ [id]⟩
  | .complete => limiterNext concurrency ⟨s.activeCount - 1, s.queue⟩

/-- A run of the limiter over a sequence of events, threading the state and
collecting the admitted task ids in admission order. -/
def limiterRun (concurrency : Nat) (s : LimiterState) :
    List LimiterEvent → LimiterState × List Nat
  | [] => (s, [])
  | e :: es =>
    let p := limiterStep concurrency s e
    let q := limiterRun concurrency p.1 es
    (q.1, p.2.toList ++ q.2)

/-- The ids submitted by a sequence of events, in submission order. -/
def submittedIds : List LimiterEvent → List Nat
  | [] => []
  | .submit id :: es => id :: submittedIds es
  | .complete :: es => submittedIds es

/-- Initial limiter state (lines 90-91): `activeCount = 0`, empty queue. -/
def limiterInit : LimiterState := ⟨0, []⟩

/-- Clock and timer observations of one `waitForTurn` chain callback
(lines 111-121): `now1` is the `Date.now()` reading at entry, `jitter` the
value of `Math.floor(Math.random() * 50)`, and `now2` the `Date.now()`
reading stored into `lastStart` at exit. -/
structure TurnEnv where
  now1 : Nat
  jitter : Nat
  now2 : Nat

/-- Line 114: `Math.max(0, lastStart + minIntervalMs - now)`; truncated
natural subtraction is exactly this clamped difference. -/
def turnWait (minIntervalMs lastStart now : Nat) : Nat :=
  lastStart + minIntervalMs - now

/-- Validity of one callback's observations: the clock is monotone (the
previous `lastStart` was read before `now1`), the jitter is below 50, and
when a positive wait is computed the callback sleeps at least
`wait + jitter` milliseconds before reading `now2` (`setTimeout` never
fires early); with no wait, `now2` is simply a later reading. -/
def envOk (minIntervalMs lastStart : Nat) (e : TurnEnv) : Prop :=
  lastStart ≤ e.now1 ∧ e.jitter < 50 ∧
    e.now1 + turnWait minIntervalMs lastStart e.now1 +
      (if 0 < turnWait minIntervalMs lastStart e.now1 then e.jitter else 0) ≤ e.now2

/-- The sequence of granted start timestamps (the successive values stored
into `lastStart`), for callbacks served in FIFO chain order; the promise
chain of `makeStartThrottler` (lines 110-122) serializes the callbacks, so
each one reads the `lastStart` written by its predecessor. -/
def throttleGrants (minIntervalMs lastStart : Nat) : List TurnEnv → List Nat
  | [] => []
  | e :: es => e.now2 :: throttleGrants minIntervalMs e.now2 es

/-- Validity of a whole sequence of callback observations. -/
def envsOk (minIntervalMs lastStart : Nat) : List TurnEnv → Prop
  | [] => True
  | e :: es => envOk minIntervalMs lastStart e ∧ envsOk minIntervalMs e.now2 es

/-- A dataset record (one entry of `galaxies.json`): `g.name` may be
missing, which line 156 (`g.name || ''`) accounts for. -/
structure Galaxy where
  id : Nat
  name : Option String
  deriving DecidableEq

/-- The aggregated per-record result of line 163:
`({ id: g.id, name, url, ...r })`. -/
structure RowResult where
  id : Nat
  name : String
  url : String
  valid : Bool
  reason : Option String
  deriving DecidableEq

/-- Line 163: the object literal `{ id: g.id, name, url, ...r }`.  The
spread of `r` comes last and `r` always carries a `url` key, so `r.url`
overwrites the originally built `builtUrl`. -/
def mkRow (g : Galaxy) (builtUrl : String) (r : CheckResult) : RowResult :=
  { id := g.id, name := g.name.getD (""), url := r.url,
    valid := r.valid, reason := r.reason }

/-- Lines 155-164: per record, default the missing name to `''`, build the
URL, resolve it, and aggregate the row. -/
def processRecord (maxRedirects : Nat) (resolveUrl : String → String → Option String)
    (probe : Nat → ProbeOutcome) (g : Galaxy) : RowResult :=
  let name := g.name.getD ("")
  let url := buildUrlFromName (some name)
  mkRow g url (checkUrl maxRedirects resolveUrl probe url)

/-- Lines 153-154: the batching loop `for (i = 0; i < len; i += BATCH_SIZE)
slice(i, i + BATCH_SIZE)`.  For `batchSize = 0` the JavaScript loop would
not terminate; the model returns `[]` there and every theorem assumes
`0 < batchSize` (the configured default is 10). -/
def batchSlices {α : Type} (batchSize : Nat) (l : List α) : List (List α) :=
  match l with
  | [] => []
  | x :: xs =>
    if hbs : batchSize = 0 then []
    else (x :: xs).take batchSize :: batchSlices batchSize ((x :: xs).drop batchSize)
termination_by l.length
decreasing_by
  simp only [List.length_drop, List.length_cons]
  omega

/-- Lines 153-167: the full result list, batch by batch, each record
resolved by `processRecord`; the per-record probe oracle is indexed by the
record's position in the input.  Results are appended batch after batch. -/
def mainResults (maxRedirects batchSize : Nat)
    (resolveUrl : String → String → Option String)
    (probe : Nat → Nat → ProbeOutcome) (records : List Galaxy) : List RowResult :=
  ((batchSlices batchSize records.enum).map
    (fun batch => batch.map
      (fun ig => processRecord maxRedirects resolveUrl (probe ig.1) ig.2))).flatten

/-- The successive values of the `completed` counter (line 138 and
line 161: starts at 0, incremented once per task completion). -/
def completedTrace (results : List RowResult) : List Nat :=
  results.scanl (fun completed _ => completed + 1) 0

/-- The number of `requestOnce` calls one record causes. -/
def recordProbeCount (maxRedirects : Nat)
    (resolveUrl : String → String → Option String)
    (probe : Nat → ProbeOutcome) (g : Galaxy) : Nat :=
  (checkUrlTrace maxRedirects resolveUrl probe
    (buildUrlFromName (some (g.name.getD (""))))).length

/-- The input situations `main` distinguishes: `readFileSync`/`JSON.parse`
throwing (caught by `main().catch` on lines 189-192), or a parsed document
whose `galaxies` field is an array or not (line 129:
`Array.isArray(json.galaxies) ? json.galaxies : []`). -/
inductive MainInput where
  | parseFailure
  | parsed (galaxies : Option (List Galaxy))

/-- The record list `main` works on. -/
def galaxyList : MainInput → List Galaxy
  | .parseFailure => []
  | .parsed none => []
  | .parsed (some l) => l

/-- The process exit status of a run (lines 126-192): 1 from the Catch
handler on an unhandled error, 1 on an empty list (line 132, before any
request), 1 when some result is invalid (line 183), otherwise 0 (normal
termination after the success message). -/
def mainExitCode (maxRedirects batchSize : Nat)
    (resolveUrl : String → String → Option String)
    (probe : Nat → Nat → ProbeOutcome) (input : MainInput) : Nat :=
  match input with
  | .parseFailure => 1
  | .parsed galaxies =>
    let list := match galaxies with | some l => l | none => []
    if list.isEmpty then 1
    else if (mainResults maxRedirects batchSize resolveUrl probe list).any
        (fun r => !r.valid) then 1
    else 0

/-- The total number of network requests a run issues: none on a fatal
startup error or an empty list (`process.exit(1)` on line 132 runs before
the batch loop), otherwise one per trace entry of each record. -/
def mainProbeCount (maxRedirects : Nat)
    (resolveUrl : String → String → Option String)
    (probe : Nat → Nat → ProbeOutcome) (input : MainInput) : Nat :=
  match input with
  | .parseFailure => 0
  | .parsed galaxies =>
    let list := match galaxies with | some l => l | none => []
    if list.isEmpty then 0
    else (list.enum.map
      (fun ig => recordProbeCount maxRedirects resolveUrl (probe ig.1) ig.2)).sum

/-- The split result is never the empty list of parts. -/
theorem splitChar_ne_nil (sep : Char) (l : List Char) : splitChar sep l ≠ [] := by
  cases l with
  | nil => simp [splitChar]
  | cons c cs =>
    simp only [splitChar]
    cases h : splitChar sep cs with
    | nil => simp
    | cons p ps =>
      by_cases hc : c = sep <;> simp [hc]

/-- Joining a list of parts whose head gained a leading character is that
character followed by the original join. -/
theorem joinChar_cons_head (sep c : Char) (p : List Char) (ps : List (List Char)) :
    joinChar sep ((c :: p) :: ps) = c :: joinChar sep (p :: ps) := by
  cases ps with
  | nil => simp [joinChar]
  | cons q qs => simp [joinChar]

/-- Character-wise description of JavaScript `split(sep).join(rep)` for
one-character separator and replacement: it replaces each occurrence of
`sep` by `rep`. -/
theorem joinChar_splitChar (sep rep : Char) (l : List Char) :
    joinChar rep (splitChar sep l) = l.map (fun c => if c = sep then rep else c) := by
  induction l with
  | nil => simp [splitChar, joinChar]
  | cons c cs ih =>
    simp only [splitChar]
    cases h : splitChar sep cs with
    | nil => exact absurd h (splitChar_ne_nil sep cs)
    | cons p ps =>
      rw [h] at ih
      by_cases hc : c = sep
      · simp only [hc, if_pos rfl, joinChar, List.map_cons, if_pos rfl]
        cases ps with
        | nil => simp [joinChar] at ih ⊢; simpa using ih
        | cons q qs => simp [joinChar] at ih ⊢; simpa using ih
      · simp only [if_neg hc, joinChar_cons_head, List.map_cons, if_neg hc]
        exact congrArg (c :: ·) ih
theorem checkUrlAux_failure (maxRedirects : Nat) (resolveUrl : String → String → Option String)
    (probe : Nat → ProbeOutcome) (k : Nat) (s : ResolverState) (errMsg : Option String)
    (hred : s.redirects ≤ maxRedirects) (hp : probe k = .failure errMsg) :
    checkUrlAux maxRedirects resolveUrl probe k s =
      ([(s.currentUrl, s.method)], s,
        ⟨s.currentUrl, false, some (errMsg.getD ("request failed"))⟩) := by
  rw [checkUrlAux]
  simp [hred, hp]

theorem checkUrlAux_2xx (maxRedirects : Nat) (resolveUrl : String → String → Option String)
    (probe : Nat → ProbeOutcome) (k : Nat) (s : ResolverState) (status : Nat)
    (location : Option String)
    (hred : s.redirects ≤ maxRedirects) (hp : probe k = .response status location)
    (h2 : 200 ≤ status ∧ status < 300) :
    checkUrlAux maxRedirects resolveUrl probe k s =
      ([(s.currentUrl, s.method)], s, ⟨s.currentUrl, true, none⟩) := by
  rw [checkUrlAux]
  simp [hred, hp, h2]

theorem checkUrlAux_fallback (maxRedirects : Nat) (resolveUrl : String → String → Option String)
    (probe : Nat → ProbeOutcome) (k : Nat) (s : ResolverState) (status : Nat)
    (location : Option String)
    (hred : s.redirects ≤ maxRedirects) (hp : probe k = .response status location)
    (hst : status = 405 ∨ status = 403) (hm : s.method = .HEAD) :
    checkUrlAux maxRedirects resolveUrl probe k s =
      ((s.currentUrl, .HEAD) ::
          (checkUrlAux maxRedirects resolveUrl probe (k + 1)
            ⟨s.currentUrl, s.redirects, .GET⟩).1,
        (checkUrlAux maxRedirects resolveUrl probe (k + 1)
          ⟨s.currentUrl, s.redirects, .GET⟩).2) := by
  have h2 : ¬(200 ≤ status ∧ status < 300) := by omega
  rw [checkUrlAux]
  simp [hred, hp, h2, hst, hm]

theorem checkUrlAux_redirect (maxRedirects : Nat) (resolveUrl : String → String → Option String)
    (probe : Nat → ProbeOutcome) (k : Nat) (s : ResolverState) (status : Nat)
    (location : Option String) (newUrl : String)
    (hred : s.redirects ≤ maxRedirects) (hp : probe k = .response status location)
    (hst : 300 ≤ status ∧ status < 400) (hloc : location.getD ("") ≠ "")
    (hres : resolveUrl (location.getD ("")) s.currentUrl = some newUrl) :
    checkUrlAux maxRedirects resolveUrl probe k s =
      ((s.currentUrl, s.method) ::
          (checkUrlAux maxRedirects resolveUrl probe (k + 1)
            ⟨newUrl, s.redirects + 1, .HEAD⟩).1,
        (checkUrlAux maxRedirects resolveUrl probe (k + 1)
          ⟨newUrl, s.redirects + 1, .HEAD⟩).2) := by
  have h2 : ¬(200 ≤ status ∧ status < 300) := by omega
  have hf : ¬((status = 405 ∨ status = 403) ∧ s.method = .HEAD) := by
    rintro ⟨h45, -⟩; omega
  rw [checkUrlAux]
  simp [hred, hp, h2, hf, hst, hloc, hres]

theorem checkUrlAux_badloc (maxRedirects : Nat) (resolveUrl : String → String → Option String)
    (probe : Nat → ProbeOutcome) (k : Nat) (s : ResolverState) (status : Nat)
    (location : Option String)
    (hred : s.redirects ≤ maxRedirects) (hp : probe k = .response status location)
    (hst : 300 ≤ status ∧ status < 400) (hloc : location.getD ("") ≠ "")
    (hres : resolveUrl (location.getD ("")) s.currentUrl = none) :
    checkUrlAux maxRedirects resolveUrl probe k s =
      ([(s.currentUrl, s.method)], s,
        ⟨s.currentUrl, false, some ("invalid redirect location")⟩) := by
  have h2 : ¬(200 ≤ status ∧ status < 300) := by omega
  have hf : ¬((status = 405 ∨ status = 403) ∧ s.method = .HEAD) := by
    rintro ⟨h45, -⟩; omega
  rw [checkUrlAux]
  simp [hred, hp, h2, hf, hst, hloc, hres]

theorem checkUrlAux_other (maxRedirects : Nat) (resolveUrl : String → String → Option String)
    (probe : Nat → ProbeOutcome) (k : Nat) (s : ResolverState) (status : Nat)
    (location : Option String)
    (hred : s.redirects ≤ maxRedirects) (hp : probe k = .response status location)
    (h2 : ¬(200 ≤ status ∧ status < 300))
    (hf : ¬((status = 405 ∨ status = 403) ∧ s.method = .HEAD))
    (ho : ¬(300 ≤ status ∧ status < 400 ∧ location.getD ("") ≠ "")) :
    checkUrlAux maxRedirects resolveUrl probe k s =
      ([(s.currentUrl, s.method)], s,
        ⟨s.currentUrl, false, some ("HTTP " ++ toString status)⟩) := by
  rw [checkUrlAux]
  simp only [hred, hp, dif_pos hred]
  simp [h2, hf, ho]

theorem checkUrlAux_exhausted (maxRedirects : Nat) (resolveUrl : String → String → Option String)
    (probe : Nat → ProbeOutcome) (k : Nat) (s : ResolverState)
    (hred : maxRedirects < s.redirects) :
    checkUrlAux maxRedirects resolveUrl probe k s =
      ([], s, ⟨s.currentUrl, false, some ("too many redirects")⟩) := by
  rw [checkUrlAux]
  simp [Nat.not_le.mpr hred]

/-- Any state still inside the loop contributes at least one probe's worth
of measure. -/
theorem stateMeasure_pos (maxRedirects : Nat) (s : ResolverState)
    (hred : s.redirects ≤ maxRedirects) : 1 ≤ stateMeasure maxRedirects s := by
  have hb := Nat.zero_le (methodBit s.method)
  unfold stateMeasure
  omega

/-- Falling back from HEAD to GET consumes exactly one unit of measure. -/
theorem stateMeasure_drop_fallback (maxRedirects : Nat) (s : ResolverState)
    (hm : s.method = .HEAD) :
    stateMeasure maxRedirects ⟨s.currentUrl, s.redirects, .GET⟩ + 1 =
      stateMeasure maxRedirects s := by
  unfold stateMeasure
  rw [hm]
  simp [methodBit]

/-- Following a redirect consumes at least one unit of measure. -/
theorem stateMeasure_drop_redirect (maxRedirects : Nat) (s : ResolverState) (u : String)
    (hred : s.redirects ≤ maxRedirects) :
    stateMeasure maxRedirects ⟨u, s.redirects + 1, .HEAD⟩ + 1 ≤
      stateMeasure maxRedirects s := by
  have hb := Nat.zero_le (methodBit s.method)
  unfold stateMeasure
  simp only [methodBit]
  omega

/-- The number of requests issued from a state is bounded by its measure:
the resolver loop always terminates, for every probe sequence. -/
theorem checkUrlAux_trace_length (maxRedirects : Nat)
    (resolveUrl : String → String → Option String) (probe : Nat → ProbeOutcome)
    (k : Nat) (s : ResolverState) :
    (checkUrlAux maxRedirects resolveUrl probe k s).1.length ≤
      stateMeasure maxRedirects s := by
  induction k, s using checkUrlAux.induct maxRedirects resolveUrl probe with
  | case1 k s hred errMsg hp =>
    rw [checkUrlAux_failure maxRedirects resolveUrl probe k s errMsg hred hp]
    simpa using stateMeasure_pos maxRedirects s hred
  | case2 k s hred status location hp h2 =>
    rw [checkUrlAux_2xx maxRedirects resolveUrl probe k s status location hred hp h2]
    simpa using stateMeasure_pos maxRedirects s hred
  | case3 k s hred status location hp h2 hm ih =>
    rw [checkUrlAux_fallback maxRedirects resolveUrl probe k s status location hred hp
      hm.1 hm.2]
    have hd := stateMeasure_drop_fallback maxRedirects s hm.2
    simp only [List.length_cons]
    omega
  | case4 k s hred status location hp h2 hf hc newUrl hres ih =>
    rw [checkUrlAux_redirect maxRedirects resolveUrl probe k s status location newUrl hred
      hp ⟨hc.1, hc.2.1⟩ hc.2.2 hres]
    have hd := stateMeasure_drop_redirect maxRedirects s newUrl hred
    simp only [List.length_cons]
    omega
  | case5 k s hred status location hp h2 hf hc hres =>
    rw [checkUrlAux_badloc maxRedirects resolveUrl probe k s status location hred hp
      ⟨hc.1, hc.2.1⟩ hc.2.2 hres]
    simpa using stateMeasure_pos maxRedirects s hred
  | case6 k s hred status location hp h2 hf ho =>
    rw [checkUrlAux_other maxRedirects resolveUrl probe k s status location hred hp h2 hf ho]
    simpa using stateMeasure_pos maxRedirects s hred
  | case7 k s hred =>
    rw [checkUrlAux_exhausted maxRedirects resolveUrl probe k s (Nat.not_le.mp hred)]
    simp

/-- The `url` field of the returned record is always the `currentUrl` of the
final loop state: the result reports the last hop's URL. -/
theorem checkUrlAux_url_eq_final (maxRedirects : Nat)
    (resolveUrl : String → String → Option String) (probe : Nat → ProbeOutcome)
    (k : Nat) (s : ResolverState) :
    (checkUrlAux maxRedirects resolveUrl probe k s).2.2.url =
      (checkUrlAux maxRedirects resolveUrl probe k s).2.1.currentUrl := by
  induction k, s using checkUrlAux.induct maxRedirects resolveUrl probe with
  | case1 k s hred errMsg hp =>
    rw [checkUrlAux_failure maxRedirects resolveUrl probe k s errMsg hred hp]
  | case2 k s hred status location hp h2 =>
    rw [checkUrlAux_2xx maxRedirects resolveUrl probe k s status location hred hp h2]
  | case3 k s hred status location hp h2 hm ih =>
    rw [checkUrlAux_fallback maxRedirects resolveUrl probe k s status location hred hp
      hm.1 hm.2]
    simpa using ih
  | case4 k s hred status location hp h2 hf hc newUrl hres ih =>
    rw [checkUrlAux_redirect maxRedirects resolveUrl probe k s status location newUrl hred
      hp ⟨hc.1, hc.2.1⟩ hc.2.2 hres]
    simpa using ih
  | case5 k s hred status location hp h2 hf hc hres =>
    rw [checkUrlAux_badloc maxRedirects resolveUrl probe k s status location hred hp
      ⟨hc.1, hc.2.1⟩ hc.2.2 hres]
  | case6 k s hred status location hp h2 hf ho =>
    rw [checkUrlAux_other maxRedirects resolveUrl probe k s status location hred hp h2 hf ho]
  | case7 k s hred =>
    rw [checkUrlAux_exhausted maxRedirects resolveUrl probe k s (Nat.not_le.mp hred)]

/-- The redirect counter never decreases along the loop. -/
theorem checkUrlAux_redirects_mono (maxRedirects : Nat)
    (resolveUrl : String → String → Option String) (probe : Nat → ProbeOutcome)
    (k : Nat) (s : ResolverState) :
    s.redirects ≤ (checkUrlAux maxRedirects resolveUrl probe k s).2.1.redirects := by
  induction k, s using checkUrlAux.induct maxRedirects resolveUrl probe with
  | case1 k s hred errMsg hp =>
    rw [checkUrlAux_failure maxRedirects resolveUrl probe k s errMsg hred hp]
  | case2 k s hred status location hp h2 =>
    rw [checkUrlAux_2xx maxRedirects resolveUrl probe k s status location hred hp h2]
  | case3 k s hred status location hp h2 hm ih =>
    rw [checkUrlAux_fallback maxRedirects resolveUrl probe k s status location hred hp
      hm.1 hm.2]
    simpa using ih
  | case4 k s hred status location hp h2 hf hc newUrl hres ih =>
    rw [checkUrlAux_redirect maxRedirects resolveUrl probe k s status location newUrl hred
      hp ⟨hc.1, hc.2.1⟩ hc.2.2 hres]
    exact le_trans (Nat.le_succ s.redirects) ih
  | case5 k s hred status location hp h2 hf hc hres =>
    rw [checkUrlAux_badloc maxRedirects resolveUrl probe k s status location hred hp
      ⟨hc.1, hc.2.1⟩ hc.2.2 hres]
  | case6 k s hred status location hp h2 hf ho =>
    rw [checkUrlAux_other maxRedirects resolveUrl probe k s status location hred hp h2 hf ho]
  | case7 k s hred =>
    rw [checkUrlAux_exhausted maxRedirects resolveUrl probe k s (Nat.not_le.mp hred)]

/-- If no redirect was followed (the final redirect counter equals the
initial one), the reported `url` is the starting URL unchanged. -/
theorem checkUrlAux_url_of_redirects_eq (maxRedirects : Nat)
    (resolveUrl : String → String → Option String) (probe : Nat → ProbeOutcome)
    (k : Nat) (s : ResolverState) :
    (checkUrlAux maxRedirects resolveUrl probe k s).2.1.redirects = s.redirects →
      (checkUrlAux maxRedirects resolveUrl probe k s).2.2.url = s.currentUrl := by
  induction k, s using checkUrlAux.induct maxRedirects resolveUrl probe with
  | case1 k s hred errMsg hp =>
    rw [checkUrlAux_failure maxRedirects resolveUrl probe k s errMsg hred hp]
    intro _; rfl
  | case2 k s hred status location hp h2 =>
    rw [checkUrlAux_2xx maxRedirects resolveUrl probe k s status location hred hp h2]
    intro _; rfl
  | case3 k s hred status location hp h2 hm ih =>
    rw [checkUrlAux_fallback maxRedirects resolveUrl probe k s status location hred hp
      hm.1 hm.2]
    simp only at ih ⊢
    exact ih
  | case4 k s hred status location hp h2 hf hc newUrl hres ih =>
    rw [checkUrlAux_redirect maxRedirects resolveUrl probe k s status location newUrl hred
      hp ⟨hc.1, hc.2.1⟩ hc.2.2 hres]
    intro hfin
    exfalso
    have hmono := checkUrlAux_redirects_mono maxRedirects resolveUrl probe (k + 1)
      ⟨newUrl, s.redirects + 1, .HEAD⟩
    have h1 : s.redirects + 1 ≤ s.redirects := le_trans hmono (le_of_eq hfin)
    omega
  | case5 k s hred status location hp h2 hf hc hres =>
    rw [checkUrlAux_badloc maxRedirects resolveUrl probe k s status location hred hp
      ⟨hc.1, hc.2.1⟩ hc.2.2 hres]
    intro _; rfl
  | case6 k s hred status location hp h2 hf ho =>
    rw [checkUrlAux_other maxRedirects resolveUrl probe k s status location hred hp h2 hf ho]
    intro _; rfl
  | case7 k s hred =>
    rw [checkUrlAux_exhausted maxRedirects resolveUrl probe k s (Nat.not_le.mp hred)]
    intro _; rfl

/-- Whenever the loop is entered, the first request issued is for the
state's current URL with the state's current method. -/
theorem checkUrlAux_trace_head (maxRedirects : Nat)
    (resolveUrl : String → String → Option String) (probe : Nat → ProbeOutcome)
    (k : Nat) (s : ResolverState) (hred : s.redirects ≤ maxRedirects) :
    (checkUrlAux maxRedirects resolveUrl probe k s).1.head? =
      some (s.currentUrl, s.method) := by
  cases hp : probe k with
  | failure errMsg =>
    rw [checkUrlAux_failure maxRedirects resolveUrl probe k s errMsg hred hp]
    rfl
  | response status location =>
    by_cases h2 : 200 ≤ status ∧ status < 300
    · rw [checkUrlAux_2xx maxRedirects resolveUrl probe k s status location hred hp h2]
      rfl
    · by_cases hm : (status = 405 ∨ status = 403) ∧ s.method = .HEAD
      · rw [checkUrlAux_fallback maxRedirects resolveUrl probe k s status location hred hp
          hm.1 hm.2, hm.2]
        rfl
      · by_cases hc : 300 ≤ status ∧ status < 400 ∧ location.getD ("") ≠ ""
        · cases hres : resolveUrl (location.getD ("")) s.currentUrl with
          | some newUrl =>
            rw [checkUrlAux_redirect maxRedirects resolveUrl probe k s status location
              newUrl hred hp ⟨hc.1, hc.2.1⟩ hc.2.2 hres]
            rfl
          | none =>
            rw [checkUrlAux_badloc maxRedirects resolveUrl probe k s status location hred
              hp ⟨hc.1, hc.2.1⟩ hc.2.2 hres]
            rfl
        · rw [checkUrlAux_other maxRedirects resolveUrl probe k s status location hred hp
            h2 hm hc]
          rfl

/-- Whatever `next()` admits was the front of the queue: the admitted ids
followed by the remaining queue reconstruct the old queue. -/
theorem limiterNext_queue (concurrency a : Nat) (q : List Nat) :
    (limiterNext concurrency ⟨a, q⟩).2.toList ++ (limiterNext concurrency ⟨a, q⟩).1.queue =
      q := by
  cases q with
  | nil => rfl
  | cons t rest =>
    by_cases hc : concurrency ≤ a <;> simp [limiterNext, hc]

/-- The `next()` call increments `activeCount` only below the limit. -/
theorem limiterNext_active (concurrency a : Nat) (q : List Nat)
    (h : a ≤ concurrency) :
    (limiterNext concurrency ⟨a, q⟩).1.activeCount ≤ concurrency := by
  cases q with
  | nil => exact h
  | cons t rest =>
    by_cases hc : concurrency ≤ a <;> simp [limiterNext, hc] <;> omega

/-- The invariant every reachable limiter state satisfies: the active count
is within the limit, and the queue is only nonempty when all slots are
taken (each handler calls `next()` once, so no admissible task waits). -/
def limiterInv (concurrency : Nat) (s : LimiterState) : Prop :=
  s.activeCount ≤ concurrency ∧ (s.queue ≠ [] → concurrency ≤ s.activeCount)

/-- One limiter event preserves the invariant. -/
theorem limiterStep_inv (concurrency a : Nat) (q : List Nat) (e : LimiterEvent)
    (ha : a ≤ concurrency) (hq : q ≠ [] → concurrency ≤ a) :
    limiterInv concurrency (limiterStep concurrency ⟨a, q⟩ e).1 := by
  cases e with
  | submit id =>
    cases q with
    | nil =>
      by_cases hc : concurrency ≤ a <;>
        simp [limiterStep, limiterNext, limiterInv, hc] <;> omega
    | cons t rest =>
      have hfull : concurrency ≤ a := hq (by simp)
      simp [limiterStep, limiterNext, limiterInv, hfull]
      omega
  | complete =>
    cases q with
    | nil =>
      simp [limiterStep, limiterNext, limiterInv]
      omega
    | cons t rest =>
      have hfull : concurrency ≤ a := hq (by simp)
      by_cases hc : concurrency ≤ a - 1 <;>
        simp [limiterStep, limiterNext, limiterInv, hc] <;> omega

/-- A whole run preserves the limiter invariant; in particular the active
count stays within the limit at every step. -/
theorem limiterRun_inv (concurrency : Nat) (events : List LimiterEvent) :
    ∀ (s : LimiterState), limiterInv concurrency s →
      limiterInv concurrency (limiterRun concurrency s events).1 := by
  induction events with
  | nil => intro s h; exact h
  | cons e es ih =>
    intro s h
    exact ih (limiterStep concurrency s e).1
      (limiterStep_inv concurrency s.activeCount s.queue e h.1 h.2)

/-- One step's admissions and remaining queue account exactly for the old
queue plus a fresh submission. -/
theorem limiterStep_queue (concurrency : Nat) (s : LimiterState) (e : LimiterEvent) :
    (limiterStep concurrency s e).2.toList ++ (limiterStep concurrency s e).1.queue =
      s.queue ++ submittedIds [e] := by
  cases e with
  | submit id =>
    have h := limiterNext_queue concurrency s.activeCount (s.queue ++ [id])
    simpa [limiterStep, submittedIds] using h
  | complete =>
    have h := limiterNext_queue concurrency (s.activeCount - 1) s.queue
    simpa [limiterStep, submittedIds] using h

/-- FIFO accounting over a whole run: the admitted ids, in admission order,
followed by the ids still queued, are exactly the initial queue followed by
all submitted ids in submission order. -/
theorem limiterRun_fifo (concurrency : Nat) (events : List LimiterEvent) :
    ∀ (s : LimiterState),
      (limiterRun concurrency s events).2 ++ (limiterRun concurrency s events).1.queue =
        s.queue ++ submittedIds events := by
  induction events with
  | nil => intro s; simp [limiterRun, submittedIds]
  | cons e es ih =>
    intro s
    have hstep := limiterStep_queue concurrency s e
    have hih := ih (limiterStep concurrency s e).1
    cases e with
    | submit id =>
      simp only [limiterRun, submittedIds] at *
      rw [List.append_assoc, hih, ← List.append_assoc, hstep]
      simp [submittedIds]
    | complete =>
      simp only [limiterRun, submittedIds] at *
      rw [List.append_assoc, hih, ← List.append_assoc, hstep]
      simp [submittedIds]

/-- Draining: from any invariant state, one completion per outstanding task
(running or queued) reaches the idle state, admitting every queued task in
queue order.  Needs a positive concurrency limit. -/
theorem limiterRun_drain (concurrency : Nat) (hc : 0 < concurrency) :
    ∀ (n a : Nat) (q : List Nat), n = a + q.length →
      a ≤ concurrency → (q = [] ∨ a = concurrency) →
      limiterRun concurrency ⟨a, q⟩ (List.replicate n .complete) = (⟨0, []⟩, q) := by
  intro n
  induction n with
  | zero =>
    intro a q hn ha hq
    have ha0 : a = 0 := by omega
    have hq0 : q = [] := List.eq_nil_of_length_eq_zero (by omega)
    subst ha0 hq0
    rfl
  | succ n ih =>
    intro a q hn ha hq
    rw [List.replicate_succ]
    cases q with
    | nil =>
      have hstep : limiterStep concurrency ⟨a, []⟩ .complete = (⟨a - 1, []⟩, none) := rfl
      have hrec := ih (a - 1) [] (by simp at hn ⊢; omega) (by omega) (Or.inl rfl)
      simp [limiterRun, hstep, hrec]
    | cons t rest =>
      have hfull : a = concurrency := by
        rcases hq with h | h
        · exact absurd h (by simp)
        · exact h
      have hc1 : ¬ concurrency ≤ a - 1 := by omega
      have hstep : limiterStep concurrency ⟨a, t :: rest⟩ .complete =
          (⟨a, rest⟩, some t) := by
        simp [limiterStep, limiterNext, hc1]
        omega
      have hrec := ih a rest (by simp at hn ⊢; omega) ha (Or.inr hfull)
      simp [limiterRun, hstep, hrec]

/-- Successive granted start timestamps form a chain spaced by at least
`minIntervalMs`, starting from the previous `lastStart`; the jitter only
adds to the enforced wait. -/
theorem throttleGrants_chain (minIntervalMs : Nat) (es : List TurnEnv) :
    ∀ (lastStart : Nat), envsOk minIntervalMs lastStart es →
      List.Chain (fun a b => a + minIntervalMs ≤ b) lastStart
        (throttleGrants minIntervalMs lastStart es) := by
  induction es with
  | nil => intro lastStart h; exact List.Chain.nil
  | cons e es ih =>
    intro lastStart h
    obtain ⟨he, hes⟩ := h
    obtain ⟨h1, h2, h3⟩ := he
    refine List.Chain.cons ?_ (ih e.now2 hes)
    by_cases hw : 0 < turnWait minIntervalMs lastStart e.now1
    · rw [if_pos hw] at h3
      unfold turnWait at h3 hw
      omega
    · rw [if_neg hw] at h3
      unfold turnWait at h3 hw
      omega

/-- Any two granted start timestamps, in grant order, are spaced by at
least `minIntervalMs`. -/
theorem throttleGrants_pairwise (minIntervalMs lastStart : Nat) (es : List TurnEnv)
    (h : envsOk minIntervalMs lastStart es) :
    List.Pairwise (fun a b => a + minIntervalMs ≤ b)
      (throttleGrants minIntervalMs lastStart es) := by
  haveI : IsTrans Nat (fun a b => a + minIntervalMs ≤ b) :=
    ⟨fun a b c hab hbc => le_trans hab (le_trans (Nat.le_add_right b minIntervalMs) hbc)⟩
  have hchain := throttleGrants_chain minIntervalMs es lastStart h
  exact (List.chain_iff_pairwise.mp hchain).of_cons

/-- Concatenating the batches gives back the input list (the batch loop
covers every record exactly once). -/
theorem batchSlices_flatten {α : Type} (batchSize : Nat) (hbs : 0 < batchSize)
    (l : List α) : (batchSlices batchSize l).flatten = l := by
  induction l using batchSlices.induct batchSize with
  | case1 => rw [batchSlices.eq_1]; rfl
  | case2 x xs hbs0 => omega
  | case3 x xs hbs0 ih =>
    rw [batchSlices.eq_2, dif_neg hbs0, List.flatten_cons, ih]
    exact List.take_append_drop batchSize (x :: xs)

/-- Mapping under the batching then flattening is flattening then
mapping. -/
theorem flatten_map_map {α β : Type} (f : α → β) (L : List (List α)) :
    (L.map (List.map f)).flatten = L.flatten.map f := by
  induction L with
  | nil => rfl
  | cons l ls ih => simp only [List.map_cons, List.flatten_cons, List.map_append, ih]

/-- With a positive batch size, the batched run produces exactly one row
per record, in input order. -/
theorem mainResults_eq (maxRedirects batchSize : Nat) (hbs : 0 < batchSize)
    (resolveUrl : String → String → Option String)
    (probe : Nat → Nat → ProbeOutcome) (records : List Galaxy) :
    mainResults maxRedirects batchSize resolveUrl probe records =
      records.enum.map
        (fun ig => processRecord maxRedirects resolveUrl (probe ig.1) ig.2) := by
  unfold mainResults
  rw [flatten_map_map, batchSlices_flatten batchSize hbs]

/-- The counter trace of a fold that adds one per element, from an
arbitrary start. -/
theorem scanl_add_one {α : Type} (l : List α) :
    ∀ (c : Nat), l.scanl (fun completed _ => completed + 1) c =
      (List.range (l.length + 1)).map (fun i => i + c) := by
  induction l with
  | nil => intro c; simp [List.scanl, List.range_succ]
  | cons x xs ih =>
    intro c
    have h1 := List.range_succ_eq_map (xs.length + 1)
    simp only [List.scanl, List.length_cons]
    rw [ih (c + 1), h1, List.map_cons, List.map_map, Nat.zero_add]
    refine congrArg (fun t => c :: t) ?_
    refine List.map_congr_left ?_
    intro a ha
    simp only [Function.comp_apply]
    omega

/-- The `completed` counter takes exactly the values `0, 1, ..., total`. -/
theorem completedTrace_range (results : List RowResult) :
    completedTrace results = List.range (results.length + 1) := by
  unfold completedTrace
  rw [scanl_add_one results 0]
  simp

/-- Valid and invalid rows together count every row exactly once. -/
theorem countP_valid_total (l : List RowResult) :
    l.countP (fun r => r.valid) + l.countP (fun r => !r.valid) = l.length := by
  induction l with
  | nil => rfl
  | cons r rs ih =>
    by_cases hv : r.valid = true <;> simp [List.countP_cons, hv] <;> omega

/-- Character-level description of the builder: the suffix is the name with
every space replaced by an underscore, appended to the base path. -/
theorem buildUrlFromName_some (n : String) :
    buildUrlFromName (some n) =
      BASE ++ String.mk (n.data.map (fun c => if c = ' ' then '_' else c)) := by
  unfold buildUrlFromName
  rw [Option.getD_some, joinChar_splitChar]

/-- The base path contains no space character. -/
theorem BASE_no_space : BASE.data.count ' ' = 0 := by decide

/-- The replacement map produces no space character. -/
theorem map_replace_no_space (l : List Char) :
    (l.map (fun c => if c = ' ' then '_' else c)).count ' ' = 0 := by
  rw [List.count_eq_zero]
  intro hmem
  obtain ⟨c, hc, hfc⟩ := List.mem_map.mp hmem
  by_cases hsp : c = ' '
  · rw [if_pos hsp] at hfc
    exact absurd hfc (by decide)
  · rw [if_neg hsp] at hfc
    exact hsp hfc

/-- On a string without spaces the replacement map is the identity. -/
theorem map_replace_id_of_no_space (l : List Char) (h : l.count ' ' = 0) :
    l.map (fun c => if c = ' ' then '_' else c) = l := by
  have hmem : ' ' ∉ l := List.count_eq_zero.mp h
  have hcong : ∀ c ∈ l, (if c = ' ' then '_' else c) = c := by
    intro c hc
    by_cases hsp : c = ' '
    · subst hsp
      exact absurd hc hmem
    · exact if_neg hsp
  rw [List.map_congr_left hcong]
  simp

/-- C7: for every name — any text, including the empty string, and even a
missing (`null`/`undefined`) name — `buildUrlFromName` returns exactly the
fixed base path concatenated with the name in which every space character
has been replaced by an underscore, and nothing else (no escaping,
encoding or normalization); as a total Lean function it is pure,
deterministic and never fails. -/
theorem c7_build_url_exact (name : Option String) :
    buildUrlFromName name =
      BASE ++ String.mk ((name.getD ("")).data.map
        (fun c => if c = ' ' then '_' else c)) := by
  unfold buildUrlFromName
  rw [joinChar_splitChar]

/-- C8 counterexample: applying `build` to its own output does not yield
the same result, because the fixed base path is prepended a second time;
at the empty name, `build(build(""))` is the base path doubled, not
`build("")`. -/
theorem c8_counterexample :
    buildUrlFromName (some (buildUrlFromName (some ("")))) ≠
      buildUrlFromName (some ("")) := by
  decide

/-- C8 (amended): `build(n)` replaces every space with an underscore and
its output contains no space, so re-applying the space-to-underscore
replacement to `build(n)` leaves it unchanged; `build` itself is not
idempotent, since it prepends the base path again:
`build(build(n)) = BASE ++ build(n)`. -/
theorem c8_replace_idempotent (n : String) :
    (buildUrlFromName (some n)).data.count ' ' = 0 ∧
    joinChar '_' (splitChar ' ' (buildUrlFromName (some n)).data) =
      (buildUrlFromName (some n)).data ∧
    buildUrlFromName (some (buildUrlFromName (some n))) =
      BASE ++ buildUrlFromName (some n) := by
  have hdata : (buildUrlFromName (some n)).data =
      BASE.data ++ n.data.map (fun c => if c = ' ' then '_' else c) := by
    rw [buildUrlFromName_some n, String.data_append]
  have hcount : (buildUrlFromName (some n)).data.count ' ' = 0 := by
    rw [hdata, List.count_append, BASE_no_space, map_replace_no_space]
  refine ⟨hcount, ?_, ?_⟩
  · rw [joinChar_splitChar, map_replace_id_of_no_space _ hcount]
  · rw [buildUrlFromName_some (buildUrlFromName (some n)),
      map_replace_id_of_no_space _ hcount]

/-- C10: a missing (`null`/`undefined`) name, like an empty one, is
defaulted to the empty string and yields exactly the bare base URL;
the per-record scheduling code likewise substitutes the empty string
(`g.name || ''`), so a record with a missing name is probed against the
bare base URL (the first request of its trace targets `BASE` with HEAD)
rather than causing a failure. -/
theorem c10_missing_name_default :
    buildUrlFromName none = BASE ∧
    buildUrlFromName (some ("")) = BASE ∧
    (∀ (maxRedirects : Nat) (resolveUrl : String → String → Option String)
        (probe : Nat → ProbeOutcome) (g : Galaxy), g.name = none →
      (checkUrlTrace maxRedirects resolveUrl probe
          (buildUrlFromName (some (g.name.getD ("" ))))).head? =
        some (BASE, .HEAD)) := by
  have h2 : buildUrlFromName (some ("")) = BASE := by decide
  refine ⟨by decide, h2, ?_⟩
  intro maxRedirects resolveUrl probe g hg
  rw [hg]
  show (checkUrlTrace maxRedirects resolveUrl probe (buildUrlFromName (some ("")))).head? =
    some (BASE, .HEAD)
  rw [h2]
  exact checkUrlAux_trace_head maxRedirects resolveUrl probe 0 ⟨BASE, 0, .HEAD⟩
    (Nat.zero_le maxRedirects)

/-- Witness for C10 at a concrete nameless record. -/
theorem c10_witness :
    (checkUrlTrace 5 (fun _ _ => none) (fun _ => ProbeOutcome.response 200 none)
        (buildUrlFromName (some (((⟨3, none⟩ : Galaxy)).name.getD ("" ))))).head? =
      some (BASE, .HEAD) :=
  c10_missing_name_default.2.2 5 (fun _ _ => none)
    (fun _ => ProbeOutcome.response 200 none) ⟨3, none⟩ rfl

/-- C1 (amended): for every probe sequence the resolver terminates — the
number of requests it issues is bounded by `2 * (maxRedirects + 1) + 1` —
and whenever a status in `[300, 400)` with a non-empty `Location` header
that resolves against the current URL is observed while
`redirectsTaken >= maxRedirects`, the verdict is invalid with reason
exactly "too many redirects", before any request to the redirect target is
issued.  (If the `Location` value fails to resolve, the verdict is instead
"invalid redirect location" — see the counterexample.) -/
theorem c1_redirect_limit :
    (∀ (maxRedirects : Nat) (resolveUrl : String → String → Option String)
        (probe : Nat → ProbeOutcome) (url : String),
      (checkUrlTrace maxRedirects resolveUrl probe url).length ≤
        2 * (maxRedirects + 1) + 1) ∧
    (∀ (maxRedirects : Nat) (resolveUrl : String → String → Option String)
        (probe : Nat → ProbeOutcome) (k : Nat) (s : ResolverState)
        (status : Nat) (location : Option String) (newUrl : String),
      maxRedirects ≤ s.redirects →
      probe k = .response status location →
      300 ≤ status → status < 400 → location.getD ("") ≠ "" →
      resolveUrl (location.getD ("")) s.currentUrl = some newUrl →
      (checkUrlAux maxRedirects resolveUrl probe k s).2.2.valid = false ∧
      (checkUrlAux maxRedirects resolveUrl probe k s).2.2.reason =
        some ("too many redirects")) := by
  constructor
  · intro maxRedirects resolveUrl probe url
    have h := checkUrlAux_trace_length maxRedirects resolveUrl probe 0 ⟨url, 0, .HEAD⟩
    have hm : stateMeasure maxRedirects ⟨url, 0, .HEAD⟩ = 2 * (maxRedirects + 1) + 1 := rfl
    rw [hm] at h
    exact h
  · intro maxRedirects resolveUrl probe k s status location newUrl hge hp h3a h3b hloc hres
    by_cases hred : s.redirects ≤ maxRedirects
    · rw [checkUrlAux_redirect maxRedirects resolveUrl probe k s status location newUrl
        hred hp ⟨h3a, h3b⟩ hloc hres]
      have hlt2 : maxRedirects <
          (⟨newUrl, s.redirects + 1, Method.HEAD⟩ : ResolverState).redirects := by
        show maxRedirects < s.redirects + 1
        omega
      rw [checkUrlAux_exhausted maxRedirects resolveUrl probe (k + 1)
        ⟨newUrl, s.redirects + 1, .HEAD⟩ hlt2]
      exact ⟨rfl, rfl⟩
    · rw [checkUrlAux_exhausted maxRedirects resolveUrl probe k s (Nat.not_le.mp hred)]
      exact ⟨rfl, rfl⟩

/-- Witness for C1: the probe bound at a concrete run, and the "too many
redirects" verdict when a redirect is observed past the limit. -/
theorem c1_witness :
    (checkUrlTrace 5 (fun _ _ => some ("https://u/a"))
        (fun _ => ProbeOutcome.response 301 (some ("/a"))) ("https://u/")).length ≤
      2 * (5 + 1) + 1 ∧
    ((checkUrlAux 5 (fun _ _ => some ("https://u/a"))
        (fun _ => ProbeOutcome.response 301 (some ("/a"))) 0
        ⟨"https://u/", 6, .HEAD⟩).2.2.valid = false ∧
      (checkUrlAux 5 (fun _ _ => some ("https://u/a"))
        (fun _ => ProbeOutcome.response 301 (some ("/a"))) 0
        ⟨"https://u/", 6, .HEAD⟩).2.2.reason = some ("too many redirects")) :=
  ⟨c1_redirect_limit.1 5 (fun _ _ => some ("https://u/a"))
      (fun _ => ProbeOutcome.response 301 (some ("/a"))) ("https://u/"),
    c1_redirect_limit.2 5 (fun _ _ => some ("https://u/a"))
      (fun _ => ProbeOutcome.response 301 (some ("/a"))) 0
      ⟨"https://u/", 6, .HEAD⟩ 301 (some ("/a")) ("https://u/a")
      (by decide) rfl (by decide) (by decide) (by decide) rfl⟩

/-- C1 counterexample: a redirect status with a `Location` header observed
at `redirectsTaken = maxRedirects` whose value does not resolve (the
`new URL` constructor throws, e.g. on `http://[`) yields the verdict
"invalid redirect location", not "too many redirects", refuting the claim
that any such observation yields exactly "too many redirects". -/
theorem c1_counterexample :
    (checkUrl 5 (fun loc _ => if loc = "http://[" then none else some loc)
        (fun k => ProbeOutcome.response 301
          (some (if k < 5 then "https://hop/" else "http://[")))
        ("https://start/")).reason = some ("invalid redirect location") ∧
    (checkUrl 5 (fun loc _ => if loc = "http://[" then none else some loc)
        (fun k => ProbeOutcome.response 301
          (some (if k < 5 then "https://hop/" else "http://[")))
        ("https://start/")).reason ≠ some ("too many redirects") := by
  have h : checkUrl 5 (fun loc _ => if loc = "http://[" then none else some loc)
      (fun k => ProbeOutcome.response 301
        (some (if k < 5 then "https://hop/" else "http://[")))
      ("https://start/") =
      ⟨"https://hop/", false, some ("invalid redirect location")⟩ := by
    simp [checkUrl, checkUrlAux]
  rw [h]
  exact ⟨rfl, by decide⟩

/-- C2: on a 403 or 405 with current method HEAD, the same URL is re-probed
with GET at the same redirect count (the very next request of the trace is
`(url, GET)`); a 403 or 405 received while the method is already GET is a
terminal invalid verdict (`HTTP <status>`), so the fallback happens at most
once per hop; and every followed redirect continues in a state whose method
is reset to HEAD, discarding any prior GET fallback. -/
theorem c2_method_fallback :
    (∀ (maxRedirects : Nat) (resolveUrl : String → String → Option String)
        (probe : Nat → ProbeOutcome) (k : Nat) (s : ResolverState)
        (status : Nat) (location : Option String),
      s.redirects ≤ maxRedirects → s.method = .HEAD →
      probe k = .response status location → (status = 405 ∨ status = 403) →
      checkUrlAux maxRedirects resolveUrl probe k s =
        ((s.currentUrl, .HEAD) ::
            (checkUrlAux maxRedirects resolveUrl probe (k + 1)
              ⟨s.currentUrl, s.redirects, .GET⟩).1,
          (checkUrlAux maxRedirects resolveUrl probe (k + 1)
            ⟨s.currentUrl, s.redirects, .GET⟩).2) ∧
        (checkUrlAux maxRedirects resolveUrl probe (k + 1)
            ⟨s.currentUrl, s.redirects, .GET⟩).1.head? =
          some (s.currentUrl, .GET)) ∧
    (∀ (maxRedirects : Nat) (resolveUrl : String → String → Option String)
        (probe : Nat → ProbeOutcome) (k : Nat) (s : ResolverState)
        (status : Nat) (location : Option String),
      s.redirects ≤ maxRedirects → s.method = .GET →
      probe k = .response status location → (status = 405 ∨ status = 403) →
      checkUrlAux maxRedirects resolveUrl probe k s =
        ([(s.currentUrl, .GET)], s,
          ⟨s.currentUrl, false, some ("HTTP " ++ toString status)⟩)) ∧
    (∀ (maxRedirects : Nat) (resolveUrl : String → String → Option String)
        (probe : Nat → ProbeOutcome) (k : Nat) (s : ResolverState)
        (status : Nat) (location : Option String) (newUrl : String),
      s.redirects ≤ maxRedirects →
      probe k = .response status location → 300 ≤ status → status < 400 →
      location.getD ("") ≠ "" →
      resolveUrl (location.getD ("")) s.currentUrl = some newUrl →
      checkUrlAux maxRedirects resolveUrl probe k s =
        ((s.currentUrl, s.method) ::
            (checkUrlAux maxRedirects resolveUrl probe (k + 1)
              ⟨newUrl, s.redirects + 1, .HEAD⟩).1,
          (checkUrlAux maxRedirects resolveUrl probe (k + 1)
            ⟨newUrl, s.redirects + 1, .HEAD⟩).2)) := by
  refine ⟨?_, ?_, ?_⟩
  · intro maxRedirects resolveUrl probe k s status location hred hm hp hst
    refine ⟨checkUrlAux_fallback maxRedirects resolveUrl probe k s status location
      hred hp hst hm, ?_⟩
    exact checkUrlAux_trace_head maxRedirects resolveUrl probe (k + 1)
      ⟨s.currentUrl, s.redirects, .GET⟩ hred
  · intro maxRedirects resolveUrl probe k s status location hred hm hp hst
    have h2 : ¬(200 ≤ status ∧ status < 300) := by omega
    have hf : ¬((status = 405 ∨ status = 403) ∧ s.method = .HEAD) := by
      intro hcon
      rw [hm] at hcon
      exact absurd hcon.2 (by decide)
    have ho : ¬(300 ≤ status ∧ status < 400 ∧ location.getD ("") ≠ "") := by
      rintro ⟨ha, hb, -⟩
      omega
    rw [checkUrlAux_other maxRedirects resolveUrl probe k s status location hred hp
      h2 hf ho, hm]
  · intro maxRedirects resolveUrl probe k s status location newUrl hred hp h3a h3b hloc hres
    exact checkUrlAux_redirect maxRedirects resolveUrl probe k s status location newUrl
      hred hp ⟨h3a, h3b⟩ hloc hres

/-- Witness for C2 at concrete probes: a 405 on HEAD falls back to GET on
the same URL; a 405 on GET is terminal; a 301 with a resolvable location
continues with method HEAD. -/
theorem c2_witness :
    (checkUrlAux 5 (fun _ _ => none) (fun _ => ProbeOutcome.response 405 none) 0
        ⟨"https://u/", 0, .HEAD⟩ =
      (("https://u/", .HEAD) ::
          (checkUrlAux 5 (fun _ _ => none) (fun _ => ProbeOutcome.response 405 none) 1
            ⟨"https://u/", 0, .GET⟩).1,
        (checkUrlAux 5 (fun _ _ => none) (fun _ => ProbeOutcome.response 405 none) 1
          ⟨"https://u/", 0, .GET⟩).2) ∧
      (checkUrlAux 5 (fun _ _ => none) (fun _ => ProbeOutcome.response 405 none) 1
          ⟨"https://u/", 0, .GET⟩).1.head? = some ("https://u/", .GET)) ∧
    (checkUrlAux 5 (fun _ _ => none) (fun _ => ProbeOutcome.response 405 none) 1
        ⟨"https://u/", 0, .GET⟩ =
      ([("https://u/", .GET)], ⟨"https://u/", 0, .GET⟩,
        ⟨"https://u/", false, some ("HTTP " ++ toString 405)⟩)) ∧
    (checkUrlAux 5 (fun l _ => some l)
        (fun _ => ProbeOutcome.response 301 (some ("https://v/"))) 0
        ⟨"https://u/", 0, .HEAD⟩ =
      (("https://u/", .HEAD) ::
          (checkUrlAux 5 (fun l _ => some l)
            (fun _ => ProbeOutcome.response 301 (some ("https://v/"))) 1
            ⟨"https://v/", 0 + 1, .HEAD⟩).1,
        (checkUrlAux 5 (fun l _ => some l)
          (fun _ => ProbeOutcome.response 301 (some ("https://v/"))) 1
          ⟨"https://v/", 0 + 1, .HEAD⟩).2)) :=
  ⟨c2_method_fallback.1 5 (fun _ _ => none) (fun _ => ProbeOutcome.response 405 none)
      0 ⟨"https://u/", 0, .HEAD⟩ 405 none (by decide) rfl rfl (Or.inl rfl),
    c2_method_fallback.2.1 5 (fun _ _ => none) (fun _ => ProbeOutcome.response 405 none)
      1 ⟨"https://u/", 0, .GET⟩ 405 none (by decide) rfl rfl (Or.inl rfl),
    c2_method_fallback.2.2 5 (fun l _ => some l)
      (fun _ => ProbeOutcome.response 301 (some ("https://v/"))) 0
      ⟨"https://u/", 0, .HEAD⟩ 301 (some ("https://v/")) ("https://v/")
      (by decide) rfl (by decide) (by decide) (by decide) rfl⟩

/-- C9 (amended): in every aggregated row the `url` field is the resolver's
reported URL — the spread of the resolver's result overwrites the
originally built URL — and the resolver's reported URL is always the final
hop's `currentUrl`; whenever no redirect was followed it equals the
starting (built) URL.  ("Only when no redirect was followed" fails: a
redirect that resolves back to the same URL also leaves it equal — see the
counterexample.) -/
theorem c9_reported_url :
    (∀ (g : Galaxy) (builtUrl : String) (r : CheckResult),
      (mkRow g builtUrl r).url = r.url) ∧
    (∀ (maxRedirects : Nat) (resolveUrl : String → String → Option String)
        (probe : Nat → ProbeOutcome) (g : Galaxy),
      (processRecord maxRedirects resolveUrl probe g).url =
        (checkUrl maxRedirects resolveUrl probe
          (buildUrlFromName (some (g.name.getD ("" ))))).url) ∧
    (∀ (maxRedirects : Nat) (resolveUrl : String → String → Option String)
        (probe : Nat → ProbeOutcome) (url : String),
      (checkUrl maxRedirects resolveUrl probe url).url =
        (checkUrlFinal maxRedirects resolveUrl probe url).currentUrl) ∧
    (∀ (maxRedirects : Nat) (resolveUrl : String → String → Option String)
        (probe : Nat → ProbeOutcome) (url : String),
      (checkUrlFinal maxRedirects resolveUrl probe url).redirects = 0 →
        (checkUrl maxRedirects resolveUrl probe url).url = url) := by
  refine ⟨?_, ?_, ?_, ?_⟩
  · intro g builtUrl r
    rfl
  · intro maxRedirects resolveUrl probe g
    rfl
  · intro maxRedirects resolveUrl probe url
    exact checkUrlAux_url_eq_final maxRedirects resolveUrl probe 0 ⟨url, 0, .HEAD⟩
  · intro maxRedirects resolveUrl probe url h
    exact checkUrlAux_url_of_redirects_eq maxRedirects resolveUrl probe 0
      ⟨url, 0, .HEAD⟩ h

/-- Witness for C9 at a concrete run with no redirect. -/
theorem c9_witness :
    (checkUrl 5 (fun _ _ => none) (fun _ => ProbeOutcome.response 200 none)
        ("https://u/")).url = "https://u/" :=
  c9_reported_url.2.2.2 5 (fun _ _ => none) (fun _ => ProbeOutcome.response 200 none)
    ("https://u/") (by simp [checkUrlFinal, checkUrlAux])

/-- C9 counterexample: a 301 whose `Location` resolves back to the same URL
followed by a 200 reports a `url` equal to the built URL even though one
redirect was followed, refuting "equals the built URL only when no
redirect was followed". -/
theorem c9_counterexample :
    (checkUrl 5 (fun loc _ => some loc)
        (fun k => if k = 0 then ProbeOutcome.response 301 (some ("https://e/"))
          else ProbeOutcome.response 200 none) ("https://e/")).url = "https://e/" ∧
    (checkUrlFinal 5 (fun loc _ => some loc)
        (fun k => if k = 0 then ProbeOutcome.response 301 (some ("https://e/"))
          else ProbeOutcome.response 200 none) ("https://e/")).redirects = 1 := by
  constructor
  · simp [checkUrl, checkUrlAux]
  · simp [checkUrlFinal, checkUrlAux]

/-- C3: under monotone clocks and at-least semantics for timers, any two
start timestamps granted by the throttler — in FIFO chain order of the
callers — are separated by at least `minIntervalMs` (the 0-50 ms jitter
only lengthens the enforced wait, as the spacing holds for every jitter
value), and the granted timestamps are monotone in arrival order. -/
theorem c3_throttle_spacing (minIntervalMs lastStart : Nat) (es : List TurnEnv)
    (h : envsOk minIntervalMs lastStart es) :
    List.Pairwise (fun a b => a + minIntervalMs ≤ b)
      (throttleGrants minIntervalMs lastStart es) ∧
    List.Pairwise (fun a b => a ≤ b) (throttleGrants minIntervalMs lastStart es) := by
  have hp := throttleGrants_pairwise minIntervalMs lastStart es h
  exact ⟨hp, hp.imp (fun hab => le_trans (Nat.le_add_right _ _) hab)⟩

/-- Witness for C3 at two concrete callers: the second grant is at least
`minIntervalMs` after the first. -/
theorem c3_witness :
    List.Pairwise (fun a b => a + 300 ≤ b)
      (throttleGrants 300 0 [⟨0, 7, 307⟩, ⟨310, 0, 610⟩]) ∧
    List.Pairwise (fun a b => a ≤ b)
      (throttleGrants 300 0 [⟨0, 7, 307⟩, ⟨310, 0, 610⟩]) :=
  c3_throttle_spacing 300 0 [⟨0, 7, 307⟩, ⟨310, 0, 610⟩]
    (by norm_num [envsOk, envOk, turnWait])

/-- C4: from the initial limiter state, the active count never exceeds the
concurrency limit after any event sequence; the admitted ids followed by
the still-queued ids are exactly the submitted ids in submission order
(FIFO admission); a completion in a state with a queued task and a free
slot after the decrement decrements the count and admits the queue's
front; and with a positive limit, one completion per outstanding task
drains any reachable state, admitting every queued task — no submitted
task is left permanently unadmitted. -/
theorem c4_limiter :
    (∀ (concurrency : Nat) (events : List LimiterEvent),
      (limiterRun concurrency limiterInit events).1.activeCount ≤ concurrency) ∧
    (∀ (concurrency : Nat) (events : List LimiterEvent),
      (limiterRun concurrency limiterInit events).2 ++
          (limiterRun concurrency limiterInit events).1.queue =
        submittedIds events) ∧
    (∀ (concurrency a t : Nat) (rest : List Nat),
      a - 1 < concurrency →
      limiterStep concurrency ⟨a, t :: rest⟩ .complete =
        (⟨(a - 1) + 1, rest⟩, some t)) ∧
    (∀ (concurrency : Nat) (events : List LimiterEvent), 0 < concurrency →
      limiterRun concurrency (limiterRun concurrency limiterInit events).1
          (List.replicate
            ((limiterRun concurrency limiterInit events).1.activeCount +
              (limiterRun concurrency limiterInit events).1.queue.length) .complete) =
        (⟨0, []⟩, (limiterRun concurrency limiterInit events).1.queue)) := by
  have hinv : ∀ (concurrency : Nat) (events : List LimiterEvent),
      limiterInv concurrency (limiterRun concurrency limiterInit events).1 := by
    intro concurrency events
    exact limiterRun_inv concurrency events limiterInit
      ⟨Nat.zero_le concurrency, fun h => absurd rfl h⟩
  refine ⟨?_, ?_, ?_, ?_⟩
  · intro concurrency events
    exact (hinv concurrency events).1
  · intro concurrency events
    have h := limiterRun_fifo concurrency events limiterInit
    simpa [limiterInit] using h
  · intro concurrency a t rest h
    simp [limiterStep, limiterNext, Nat.not_le.mpr h]
  · intro concurrency events hc
    obtain ⟨ha, hq⟩ := hinv concurrency events
    refine limiterRun_drain concurrency hc _
      (limiterRun concurrency limiterInit events).1.activeCount
      (limiterRun concurrency limiterInit events).1.queue rfl ha ?_
    by_cases hemp : (limiterRun concurrency limiterInit events).1.queue = []
    · exact Or.inl hemp
    · exact Or.inr (le_antisymm ha (hq hemp))

/-- Witness for C4: a completion with a queued task admits the front; a
concrete backlog of three submissions under limit 2 drains fully in FIFO
order. -/
theorem c4_witness :
    (limiterStep 2 ⟨1, [9]⟩ .complete = (⟨(1 - 1) + 1, []⟩, some 9)) ∧
    (limiterRun 2
        (limiterRun 2 limiterInit [.submit 10, .submit 11, .submit 12]).1
        (List.replicate
          ((limiterRun 2 limiterInit [.submit 10, .submit 11, .submit 12]).1.activeCount +
            (limiterRun 2 limiterInit
              [.submit 10, .submit 11, .submit 12]).1.queue.length) .complete) =
      (⟨0, []⟩,
        (limiterRun 2 limiterInit [.submit 10, .submit 11, .submit 12]).1.queue)) :=
  ⟨c4_limiter.2.2.1 2 1 9 [] (by decide),
    c4_limiter.2.2.2 2 [.submit 10, .submit 11, .submit 12] (by decide)⟩

/-- C5: the exit status is 0 exactly when the record list is non-empty and
every record's result is valid; it is 1 when some result is invalid, when
the record list is empty (including a missing or non-array `galaxies`
field) or when reading/parsing the dataset throws (the unhandled-error
catch); and on an empty record list the run issues no network request. -/
theorem c5_exit_status :
    (∀ (maxRedirects batchSize : Nat) (resolveUrl : String → String → Option String)
        (probe : Nat → Nat → ProbeOutcome) (input : MainInput),
      mainExitCode maxRedirects batchSize resolveUrl probe input = 0 ↔
        (galaxyList input ≠ [] ∧
          ∀ r ∈ mainResults maxRedirects batchSize resolveUrl probe (galaxyList input),
            r.valid = true)) ∧
    (∀ (maxRedirects batchSize : Nat) (resolveUrl : String → String → Option String)
        (probe : Nat → Nat → ProbeOutcome) (input : MainInput),
      galaxyList input = [] →
        mainExitCode maxRedirects batchSize resolveUrl probe input = 1 ∧
        mainProbeCount maxRedirects resolveUrl probe input = 0) := by
  constructor
  · intro maxRedirects batchSize resolveUrl probe input
    cases input with
    | parseFailure => simp [mainExitCode, galaxyList]
    | parsed g =>
      cases g with
      | none => simp [mainExitCode, galaxyList]
      | some l =>
        by_cases hl : l = []
        · subst hl
          simp [mainExitCode, galaxyList]
        · simp only [mainExitCode, galaxyList]
          rw [if_neg (by simp [hl])]
          by_cases hany : (mainResults maxRedirects batchSize resolveUrl probe l).any
              (fun r => !r.valid) = true
          · rw [if_pos hany]
            constructor
            · intro h
              exact absurd h one_ne_zero
            · rintro ⟨-, hall⟩
              obtain ⟨r, hrmem, hrv⟩ := List.any_eq_true.mp hany
              have hv := hall r hrmem
              rw [hv] at hrv
              exact absurd hrv (by decide)
          · rw [if_neg hany]
            constructor
            · intro _
              refine ⟨hl, ?_⟩
              intro r hrmem
              rcases Bool.eq_false_or_eq_true r.valid with hv | hv
              · exact hv
              · exact absurd (List.any_eq_true.mpr ⟨r, hrmem, by rw [hv]; rfl⟩) hany
            · intro _
              rfl
  · intro maxRedirects batchSize resolveUrl probe input hempty
    cases input with
    | parseFailure => exact ⟨rfl, rfl⟩
    | parsed g =>
      cases g with
      | none => exact ⟨rfl, rfl⟩
      | some l =>
        have hl : l = [] := hempty
        subst hl
        exact ⟨rfl, rfl⟩

/-- Witness for C5 at the empty dataset: exit status 1 and zero network
requests. -/
theorem c5_witness :
    mainExitCode 5 10 (fun _ _ => none) (fun _ _ => ProbeOutcome.response 200 none)
        (.parsed (some [])) = 1 ∧
    mainProbeCount 5 (fun _ _ => none) (fun _ _ => ProbeOutcome.response 200 none)
        (.parsed (some [])) = 0 :=
  c5_exit_status.2 5 10 (fun _ _ => none) (fun _ _ => ProbeOutcome.response 200 none)
    (.parsed (some [])) rfl

/-- C6: with a positive batch size, each input record yields exactly one
row, in input order (so no duplicates and no omissions, and a per-record
outcome — the probe oracle is arbitrary, failures included — never
prevents the remaining records from being evaluated); the `completed`
counter trace is monotonically non-decreasing and ends at the total; and
the valid and invalid rows together count exactly the total. -/
theorem c6_aggregation (maxRedirects batchSize : Nat) (hbs : 0 < batchSize)
    (resolveUrl : String → String → Option String)
    (probe : Nat → Nat → ProbeOutcome) (records : List Galaxy) :
    mainResults maxRedirects batchSize resolveUrl probe records =
      records.enum.map
        (fun ig => processRecord maxRedirects resolveUrl (probe ig.1) ig.2) ∧
    (mainResults maxRedirects batchSize resolveUrl probe records).length =
      records.length ∧
    List.Pairwise (fun a b => a ≤ b)
      (completedTrace (mainResults maxRedirects batchSize resolveUrl probe records)) ∧
    (completedTrace (mainResults maxRedirects batchSize resolveUrl probe
        records)).getLast? = some records.length ∧
    (mainResults maxRedirects batchSize resolveUrl probe records).countP
        (fun r => r.valid) +
      (mainResults maxRedirects batchSize resolveUrl probe records).countP
        (fun r => !r.valid) = records.length := by
  have heq := mainResults_eq maxRedirects batchSize hbs resolveUrl probe records
  have hlen : (mainResults maxRedirects batchSize resolveUrl probe records).length =
      records.length := by
    rw [heq, List.length_map, List.enum_length]
  refine ⟨heq, hlen, ?_, ?_, ?_⟩
  · rw [completedTrace_range]
    exact (List.pairwise_lt_range _).imp le_of_lt
  · rw [completedTrace_range, hlen]
    simp [List.range_succ, List.getLast?_concat]
  · rw [countP_valid_total]
    exact hlen

/-- Witness for C6 at two concrete records (one with a failing probe, one
missing its name). -/
theorem c6_witness :
    mainResults 5 10 (fun _ _ => none) (fun _ _ => ProbeOutcome.failure none)
        [⟨1, some ("A B")⟩, ⟨2, none⟩] =
      ([⟨1, some ("A B")⟩, ⟨2, none⟩] : List Galaxy).enum.map
        (fun ig => processRecord 5 (fun _ _ => none)
          ((fun _ _ => ProbeOutcome.failure none) ig.1) ig.2) ∧
    (mainResults 5 10 (fun _ _ => none) (fun _ _ => ProbeOutcome.failure none)
        [⟨1, some ("A B")⟩, ⟨2, none⟩]).length = 2 ∧
    List.Pairwise (fun a b => a ≤ b)
      (completedTrace (mainResults 5 10 (fun _ _ => none)
        (fun _ _ => ProbeOutcome.failure none) [⟨1, some ("A B")⟩, ⟨2, none⟩])) ∧
    (completedTrace (mainResults 5 10 (fun _ _ => none)
        (fun _ _ => ProbeOutcome.failure none)
        [⟨1, some ("A B")⟩, ⟨2, none⟩])).getLast? = some 2 ∧
    (mainResults 5 10 (fun _ _ => none) (fun _ _ => ProbeOutcome.failure none)
        [⟨1, some ("A B")⟩, ⟨2, none⟩]).countP (fun r => r.valid) +
      (mainResults 5 10 (fun _ _ => none) (fun _ _ => ProbeOutcome.failure none)
        [⟨1, some ("A B")⟩, ⟨2, none⟩]).countP (fun r => !r.valid) = 2 :=
  c6_aggregation 5 10 (by decide) (fun _ _ => none)
    (fun _ _ => ProbeOutcome.failure none) [⟨1, some ("A B")⟩, ⟨2, none⟩]
